import Mathlib

/-!
Shallow embedding of the combat / status-effect core of the `vibegame`
repository (files `src/monsters.js` and `src/spells.js`).

JavaScript numbers are modelled as real numbers (`ℝ`); the game performs no
bit-level float tricks, only arithmetic, `Math.sqrt`, `Math.atan2` and
comparisons, so the idealized real-number semantics is the intended reading.
Visual-only state (materials, hp bars, animation phases, particle meshes,
lights) carries no gameplay logic and is omitted; every field read or written
by the gameplay logic is modelled.

Wall-clock reads (`performance.now() / 1000`) are modelled by an explicit
`now : ℝ` parameter.  `Math.random()`-derived wander targets are modelled by
explicit oracle parameters, and the terrain height function `getTerrainHeight`
by an explicit function parameter.
-/

namespace Vibegame

noncomputable section

open Real

/-- Monster AI states, from the comment in `monsters.js`: idle, chase, attack, dead. -/
inductive MState where
  | idle
  | chase
  | attack
  | dead
deriving DecidableEq

/-- THREE.MathUtils.lerp: `x + (y - x) * t`. -/
def lerp (x y t : ℝ) : ℝ := x + (y - x) * t

/-- JavaScript `a % b` for the nonnegative dividends used by the code
(`m.time % 4` with `m.time ≥ 0`): `a - b * trunc (a / b)`, which for
`a ≥ 0, b > 0` equals `a - b * ⌊a / b⌋`. -/
def jsMod (a b : ℝ) : ℝ := a - b * ⌊a / b⌋

/-- JavaScript `Math.atan2 y x` (note the JS argument order: y first). -/
def atan2 (y x : ℝ) : ℝ :=
  if 0 < x then arctan (y / x)
  else if x < 0 then
    (if 0 ≤ y then arctan (y / x) + π else arctan (y / x) - π)
  else
    (if 0 < y then π / 2 else if y < 0 then -(π / 2) else 0)

/-- The loop `while (angleDiff > Math.PI) angleDiff -= Math.PI * 2` from
`attackMonstersInRange`. -/
def wrapDown (θ : ℝ) : ℝ :=
  if h : θ > π then wrapDown (θ - π * 2) else θ
termination_by (⌈(θ - π) / (2 * π)⌉).toNat
decreasing_by
  have hpi : (0:ℝ) < π := Real.pi_pos
  have h2pi : (0:ℝ) < 2 * π := by linarith
  have hpos : 0 < ⌈(θ - π) / (2 * π)⌉ := by
    apply Int.ceil_pos.mpr
    exact div_pos (by linarith) h2pi
  have heq : (θ - π * 2 - π) / (2 * π) = (θ - π) / (2 * π) - 1 := by
    field_simp
    ring
  have hceil : ⌈(θ - π * 2 - π) / (2 * π)⌉ = ⌈(θ - π) / (2 * π)⌉ - 1 := by
    rw [heq]
    exact_mod_cast Int.ceil_sub_int ((θ - π) / (2 * π)) 1
  rw [hceil]
  omega

/-- The loop `while (angleDiff < -Math.PI) angleDiff += Math.PI * 2` from
`attackMonstersInRange`. -/
def wrapUp (θ : ℝ) : ℝ :=
  if h : θ < -π then wrapUp (θ + π * 2) else θ
termination_by (⌈(-π - θ) / (2 * π)⌉).toNat
decreasing_by
  have hpi : (0:ℝ) < π := Real.pi_pos
  have h2pi : (0:ℝ) < 2 * π := by linarith
  have hpos : 0 < ⌈(-π - θ) / (2 * π)⌉ := by
    apply Int.ceil_pos.mpr
    exact div_pos (by linarith) h2pi
  have heq : (-π - (θ + π * 2)) / (2 * π) = (-π - θ) / (2 * π) - 1 := by
    field_simp
    ring
  have hceil : ⌈(-π - (θ + π * 2)) / (2 * π)⌉ = ⌈(-π - θ) / (2 * π)⌉ - 1 := by
    rw [heq]
    exact_mod_cast Int.ceil_sub_int ((-π - θ) / (2 * π)) 1
  rw [hceil]
  omega

/-- The two normalization loops of `attackMonstersInRange` run in sequence:
first the subtract-while-greater loop, then the add-while-smaller loop. -/
def wrapAngle (θ : ℝ) : ℝ := wrapUp (wrapDown θ)

/-- Gameplay-relevant parameters of a monster kind (`MONSTER_TYPES` entries and
the boss type literal in `spawnBoss`): `damage`, `speed`, `size`. -/
structure MonsterType where
  damage : ℝ
  speed : ℝ
  size : ℝ

/-- A monster registry entry, with every field the gameplay logic reads or
writes.  `x, z, y` are `group.position`, `rotY` is `group.rotation.y`,
`scale` the uniform `group.scale`.  The fields `slowUntil`, `frozen`
(`_frozen`) and `frozenPos` (`_frozenPos`) are added dynamically by
`spells.js`; absent (`undefined`) is modelled as `none` / `false`. -/
structure Monster where
  x : ℝ
  z : ℝ
  y : ℝ
  rotY : ℝ
  type : MonsterType
  hp : ℝ
  maxHp : ℝ
  state : MState
  time : ℝ
  attackCooldown : ℝ
  idleTargetX : ℝ
  idleTargetZ : ℝ
  deathTime : ℝ
  scale : ℝ
  slowUntil : Option ℝ
  frozen : Bool
  frozenPos : Option (ℝ × ℝ)
  isBoss : Bool

/-- Constant `AGGRO_RANGE` of `createMonsterSystem`. -/
def AGGRO_RANGE : ℝ := 12

/-- Constant `ATTACK_RANGE` of `createMonsterSystem`. -/
def ATTACK_RANGE : ℝ := 2

/-- Constant `ATTACK_COOLDOWN` of `createMonsterSystem`. -/
def ATTACK_COOLDOWN : ℝ := 1.5

/-- Per-monster body of the `attackMonstersInRange` loop: returns the updated
monster together with the flag contribution to `hitAny`.  A `dead` monster is
skipped; a monster with `dist > range` is skipped; otherwise the angular test
gates the damage, knockback (only when `dist > 0.1`) and death transition. -/
def meleeStep (px pz playerAngle range damage : ℝ) (m : Monster) : Monster × Bool :=
  if m.state = MState.dead then (m, false)
  else
    let dx := m.x - px
    let dz := m.z - pz
    let dist := Real.sqrt (dx * dx + dz * dz)
    if dist > range then (m, false)
    else
      let angleToMonster := atan2 dx dz
      let angleDiff := wrapAngle (angleToMonster - playerAngle)
      if |angleDiff| < π / 2 then
        let m1 : Monster := { m with hp := m.hp - damage }
        let m2 : Monster :=
          if dist > 0.1 then
            { m1 with x := m1.x + dx / dist * 0.8, z := m1.z + dz / dist * 0.8 }
          else m1
        let m3 : Monster :=
          if m2.hp ≤ 0 then
            { m2 with hp := 0, state := MState.dead, deathTime := 0 }
          else m2
        (m3, true)
      else (m, false)

/-- `attackMonstersInRange(playerPos, playerAngle, range, damage)`: every
monster goes through `meleeStep` (the loop body touches each entry
independently), and `hitAny` is the disjunction of the per-monster flags. -/
def attackMonstersInRange (px pz playerAngle range damage : ℝ) (ms : List Monster) :
    List Monster × Bool :=
  (ms.map (fun m => (meleeStep px pz playerAngle range damage m).1),
   ms.any (fun m => (meleeStep px pz playerAngle range damage m).2))

/-- The hit condition of the melee loop, as the code tests it: the monster is
not dead, its planar distance to the player does not exceed `range` (the code
skips only when `dist > range`), and the normalized angular difference is
below `π / 2` in absolute value. -/
def meleeHitCond (px pz playerAngle range : ℝ) (m : Monster) : Prop :=
  m.state ≠ MState.dead ∧
  Real.sqrt ((m.x - px) * (m.x - px) + (m.z - pz) * (m.z - pz)) ≤ range ∧
  |wrapAngle (atan2 (m.x - px) (m.z - pz) - playerAngle)| < π / 2

/-- Frostbolt `cooldown` from the `spells` table (note: it is `0`; the table
also carries a `castTime: 1.5` that `castSpell` itself never reads). -/
def frostboltCooldown : ℝ := 0

/-- Frostbolt `damage`. -/
def frostboltDamage : ℝ := 25

/-- Frostbolt `range`. -/
def frostboltRange : ℝ := 40

/-- Frostbolt `speed`. -/
def frostboltSpeed : ℝ := 25

/-- Frostbolt `slowDuration`. -/
def frostboltSlowDuration : ℝ := 3

/-- Frost Nova `cooldown`. -/
def frostNovaCooldown : ℝ := 8

/-- Frost Nova `damage`. -/
def frostNovaDamage : ℝ := 15

/-- Frost Nova `range`. -/
def frostNovaRange : ℝ := 6

/-- Frost Nova `slowDuration`. -/
def frostNovaSlowDuration : ℝ := 4

/-- A live projectile (`projectiles` entry in `spells.js`); visual children
(core, glow, particles, light) are omitted. -/
structure Projectile where
  x : ℝ
  y : ℝ
  z : ℝ
  dirX : ℝ
  dirY : ℝ
  dirZ : ℝ
  speed : ℝ
  damage : ℝ
  slowDuration : ℝ
  range : ℝ
  traveled : ℝ
  time : ℝ

/-- Kinds of transient effects pushed and pruned by the spell system. -/
inductive EffectKind where
  | frostNova
  | impact
deriving DecidableEq

/-- A transient visual effect; only its timing drives logic (pruning once
`time > maxTime`). -/
structure Effect where
  kind : EffectKind
  time : ℝ
  maxTime : ℝ

/-- The mutable state owned by `createSpellSystem`: the two current cooldowns
(`spells.frostbolt.currentCd`, `spells.frostNova.currentCd`) and the
projectile and effect lists. -/
structure SpellSys where
  frostboltCd : ℝ
  frostNovaCd : ℝ
  projectiles : List Projectile
  effects : List Effect

/-- THREE.Vector3.normalize: divide by the Euclidean length.  (For the zero
vector THREE leaves it zero; real division by zero also yields zero, so the
same result.) -/
def normalize3 (x y z : ℝ) : ℝ × ℝ × ℝ :=
  let n := Real.sqrt (x * x + y * y + z * z)
  (x / n, y / n, z / n)

/-- `spawnFrostbolt(casterPos, angle, pitch, spell)`: position at the caster
plus 1.5 height, direction from yaw and pitch, stats copied from the spell
table. -/
def spawnFrostbolt (px py pz angle pitch : ℝ) : Projectile :=
  let d := normalize3 (Real.sin angle * Real.cos pitch) (Real.sin pitch)
    (Real.cos angle * Real.cos pitch)
  { x := px, y := py + 1.5, z := pz,
    dirX := d.1, dirY := d.2.1, dirZ := d.2.2,
    speed := frostboltSpeed, damage := frostboltDamage,
    slowDuration := frostboltSlowDuration, range := frostboltRange,
    traveled := 0, time := 0 }

/-- Per-monster body of the `spawnFrostNova` damage loop: a non-dead monster
with planar distance to the caster below the nova range takes the nova damage,
gets `slowUntil = now + slowDuration`, and dies (hp clamped to 0, `deathTime`
reset) when hp drops to 0 or below. -/
def novaHitMonster (now px pz : ℝ) (m : Monster) : Monster :=
  if m.state = MState.dead then m
  else
    let dx := m.x - px
    let dz := m.z - pz
    let dist := Real.sqrt (dx * dx + dz * dz)
    if dist < frostNovaRange then
      let m1 : Monster :=
        { m with hp := m.hp - frostNovaDamage,
                 slowUntil := some (now + frostNovaSlowDuration) }
      if m1.hp ≤ 0 then { m1 with hp := 0, state := MState.dead, deathTime := 0 }
      else m1
    else m

/-- `spawnFrostNova(casterPos, spell)`: damage plus slow applied synchronously
to every monster in range, and a `frostNova` effect (maxTime 1.5) pushed. -/
def spawnFrostNova (now px pz : ℝ) (ms : List Monster) : List Monster × Effect :=
  (ms.map (novaHitMonster now px pz),
   { kind := EffectKind.frostNova, time := 0, maxTime := 1.5 })

/-- The string key of the frostbolt entry of the `spells` table. -/
def frostboltName : String := "frostbolt"

/-- The string key of the frost nova entry of the `spells` table. -/
def frostNovaName : String := "frostNova"

/-- `castSpell(name, casterPos, casterAngle, casterPitch)`.  The JS looks the
name up in the `spells` object (unknown key → `undefined` → reject), rejects
when `currentCd > 0`, otherwise sets `currentCd = cooldown` and dispatches on
the name.  `now` models the `performance.now() / 1000` read inside
`spawnFrostNova`. -/
def castSpell (name : String) (sys : SpellSys) (ms : List Monster)
    (px py pz casterAngle casterPitch now : ℝ) : SpellSys × List Monster × Bool :=
  if name = frostboltName then
    if sys.frostboltCd > 0 then (sys, ms, false)
    else
      let pj := sys.projectiles ++ [spawnFrostbolt px py pz casterAngle casterPitch]
      ({ sys with frostboltCd := frostboltCooldown, projectiles := pj }, ms, true)
  else if name = frostNovaName then
    if sys.frostNovaCd > 0 then (sys, ms, false)
    else
      let r := spawnFrostNova now px pz ms
      ({ sys with frostNovaCd := frostNovaCooldown, effects := sys.effects ++ [r.2] },
       r.1, true)
  else (sys, ms, false)

/-- Per-kind projectile hit radius of the `update` hit-detection loop:
`m.isBoss ? 4 : 1.5`. -/
def hitRange (m : Monster) : ℝ := if m.isBoss then 4 else 1.5

/-- The hit-detection loop of `update`: index of the first monster that is not
dead and whose planar distance to the (already moved) projectile is below its
hit radius. -/
def findHitIdx (px pz : ℝ) : List Monster → Option ℕ
  | [] => none
  | m :: rest =>
    let dx := m.x - px
    let dz := m.z - pz
    let dist := Real.sqrt (dx * dx + dz * dz)
    if m.state ≠ MState.dead ∧ dist < hitRange m then some 0
    else (findHitIdx px pz rest).map (fun i => i + 1)

/-- Damage application of a projectile hit: hp lowered, `slowUntil` set to
`now + slowDuration`, death transition on hp ≤ 0 (hp clamped to 0, `deathTime`
reset). -/
def projHitMonster (now damage slowDuration : ℝ) (m : Monster) : Monster :=
  let m1 : Monster :=
    { m with hp := m.hp - damage, slowUntil := some (now + slowDuration) }
  if m1.hp ≤ 0 then { m1 with hp := 0, state := MState.dead, deathTime := 0 }
  else m1

/-- Apply `f` to the element at index `i`, leaving the rest of the list as is. -/
def modifyAt {α : Type} (f : α → α) : ℕ → List α → List α
  | _, [] => []
  | 0, a :: as => f a :: as
  | n + 1, a :: as => a :: modifyAt f n as

/-- One projectile's share of `update(delta)`: advance position and
`traveled`, then run hit detection against the monster list (first non-dead
monster within the hit radius takes the damage, and the loop breaks), and
report whether the projectile is to be removed (`hit || traveled > range`)
together with the index it damaged, if any. -/
def projStep (now delta : ℝ) (p : Projectile) (ms : List Monster) :
    Projectile × List Monster × Bool × Option ℕ :=
  let p1 : Projectile :=
    { p with x := p.x + p.dirX * p.speed * delta,
             y := p.y + p.dirY * p.speed * delta,
             z := p.z + p.dirZ * p.speed * delta,
             traveled := p.traveled + p.speed * delta,
             time := p.time + delta }
  match findHitIdx p1.x p1.z ms with
  | some i => (p1, modifyAt (projHitMonster now p.damage p.slowDuration) i ms, true, some i)
  | none => (p1, ms, if p1.traveled > p1.range then true else false, none)

/-- The projectile loop of `update(delta)`: iterated from the last index down
to 0, each projectile steps against the monster list as left by the
projectiles after it, and is dropped from the list when its removal flag is
set. -/
def projLoop (now delta : ℝ) : List Projectile → List Monster → List Projectile × List Monster
  | [], ms => ([], ms)
  | p :: ps, ms =>
    let r := projLoop now delta ps ms
    let s := projStep now delta p r.2
    (if s.2.2.1 then r.1 else s.1 :: r.1, s.2.1)

/-- Effect timing in `update(delta)`: `time += delta`, pruned once
`time > maxTime` (the scale/opacity writes are visual only). -/
def effectStep (delta : ℝ) (e : Effect) : Option Effect :=
  let e1 : Effect := { e with time := e.time + delta }
  if e1.time > e1.maxTime then none else some e1

/-- `update(delta)` of the spell system: cooldowns decay toward 0, the
projectile loop runs, effects age and expire. -/
def spellUpdate (now delta : ℝ) (sys : SpellSys) (ms : List Monster) :
    SpellSys × List Monster :=
  let pr := projLoop now delta sys.projectiles ms
  ({ frostboltCd := max 0 (sys.frostboltCd - delta),
     frostNovaCd := max 0 (sys.frostNovaCd - delta),
     projectiles := pr.1,
     effects := sys.effects.filterMap (effectStep delta) }, pr.2)

/-- The `setTimeout(…, 5000)` respawn delay (milliseconds; 5 seconds). -/
def RESPAWN_DELAY_MS : ℝ := 5000

/-- Per-monster body of `update(delta, playerPos)` in `monsters.js`.  Output:
`none` when the monster was spliced out of the registry, and the scheduled
respawn delay if one was set up (`setTimeout(spawnMonster, 5000)`, non-boss
removals only).  `terrain` models `getTerrainHeight`; `wanderX`/`wanderZ`
model the two `randomRange(-3, 3)` draws of the idle wander retarget; the
`updateAnim` call and hp-bar writes are visual only and carry no gameplay
state. -/
def updateMonster (terrain : ℝ → ℝ → ℝ) (wanderX wanderZ delta px pz : ℝ)
    (m : Monster) : Option Monster × Option ℝ :=
  let m0 : Monster := { m with time := m.time + delta }
  if m0.state = MState.dead then
    let deathSpeed : ℝ := if m0.isBoss then 0.5 else 2
    let m1 : Monster :=
      { m0 with deathTime := m0.deathTime + delta,
                y := m0.y - delta * (if m0.isBoss then 0.3 else 0.5),
                scale := max 0 (m0.type.size * (1 - (m0.deathTime + delta) * deathSpeed)) }
    if m1.deathTime > (if m1.isBoss then 4 else 1.5) then
      (none, if m1.isBoss then none else some RESPAWN_DELAY_MS)
    else (some m1, none)
  else
    let dx := px - m0.x
    let dz := pz - m0.z
    let dist := Real.sqrt (dx * dx + dz * dz)
    let m1 : Monster := { m0 with attackCooldown := max 0 (m0.attackCooldown - delta) }
    let aggroRange : ℝ := if m1.isBoss then 40 else AGGRO_RANGE
    let attackRange : ℝ := if m1.isBoss then 8 else ATTACK_RANGE
    let m2 : Monster :=
      if dist < aggroRange then
        let angle := atan2 dx dz
        let mf : Monster := { m1 with rotY := lerp m1.rotY angle (min 1 (5 * delta)) }
        if dist < attackRange then { mf with state := MState.attack }
        else
          { mf with state := MState.chase,
                    x := mf.x + dx / dist * mf.type.speed * delta,
                    z := mf.z + dz / dist * mf.type.speed * delta }
      else
        let mi : Monster := { m1 with state := MState.idle }
        let mi2 : Monster :=
          if jsMod mi.time 4 < delta then
            { mi with idleTargetX := mi.x + wanderX, idleTargetZ := mi.z + wanderZ }
          else mi
        let idx := mi2.idleTargetX - mi2.x
        let idz := mi2.idleTargetZ - mi2.z
        let idist := Real.sqrt (idx * idx + idz * idz)
        if idist > 0.5 then
          { mi2 with x := mi2.x + idx / idist * 0.5 * delta,
                     z := mi2.z + idz / idist * 0.5 * delta,
                     rotY := lerp mi2.rotY (atan2 idx idz) (min 1 (2 * delta)) }
        else mi2
    let m3 : Monster := { m2 with y := lerp m2.y (terrain m2.x m2.z) (min 1 (6 * delta)) }
    (some m3, none)

/-- `checkPlayerDamage(playerPos)`: a monster contributes its `type.damage`
and has its `attackCooldown` set to `ATTACK_COOLDOWN` exactly when it is in
`attack` state, its cooldown is not positive, and its planar distance to the
player is below its attack range (boss 8, otherwise `ATTACK_RANGE`).  The JS
accumulates `totalDamage` front to back; real addition is commutative and
associative, so the fold direction is immaterial. -/
def checkPlayerDamage (px pz : ℝ) : List Monster → List Monster × ℝ
  | [] => ([], 0)
  | m :: rest =>
    let r := checkPlayerDamage px pz rest
    if m.state = MState.attack ∧ ¬ (m.attackCooldown > 0) then
      let dx := px - m.x
      let dz := pz - m.z
      let dist := Real.sqrt (dx * dx + dz * dz)
      let atkRange : ℝ := if m.isBoss then 8 else ATTACK_RANGE
      if dist < atkRange then
        ({ m with attackCooldown := ATTACK_COOLDOWN } :: r.1, r.2 + m.type.damage)
      else (m :: r.1, r.2)
    else (m :: r.1, r.2)

/-- The freeze test of the wrapped update:
`m.slowUntil && now < m.slowUntil && m.state !== 'dead'` (an absent or zero
`slowUntil` is falsy in JS). -/
def isFrozen (now : ℝ) (m : Monster) : Bool :=
  match m.slowUntil with
  | none => false
  | some t => if t ≠ 0 ∧ now < t ∧ m.state ≠ MState.dead then true else false

/-- The pre-pass of the wrapped `monsterSystem.update`: mark monsters entering
the frozen state (the material swap it also performs is visual only), unmark
monsters leaving it, and maintain `_frozenPos`
(`m._frozenPos = m._frozenPos || snapshot` while frozen, `null` otherwise). -/
def wrapPre (now : ℝ) (m : Monster) : Monster :=
  let f := isFrozen now m
  let m1 : Monster :=
    if f ∧ ¬ m.frozen then { m with frozen := true }
    else if ¬ f ∧ m.frozen then { m with frozen := false }
    else m
  if m1.frozen then
    { m1 with frozenPos :=
        match m1.frozenPos with
        | none => some (m1.x, m1.z)
        | some p => some p }
  else { m1 with frozenPos := none }

/-- The post-pass of the wrapped update: `if (m._frozen && m._frozenPos)`
snap the monster's planar position back to the freeze-time snapshot. -/
def wrapPost (m : Monster) : Monster :=
  if m.frozen then
    match m.frozenPos with
    | some p => { m with x := p.1, z := p.2 }
    | none => m
  else m

/-- One whole wrapped per-frame update for a single monster: pre-pass, the
underlying `update` body, then the snap-back pass (which only sees monsters
still in the registry). -/
def wrappedStep (terrain : ℝ → ℝ → ℝ) (wanderX wanderZ now delta px pz : ℝ)
    (m : Monster) : Option Monster × Option ℝ :=
  let m1 := wrapPre now m
  let r := updateMonster terrain wanderX wanderZ delta px pz m1
  (r.1.map wrapPost, r.2)

/-- Per-frame inputs of a wrapped update: the wall-clock time, the frame
delta, the player position, and the wander oracle draws. -/
structure Frame where
  now : ℝ
  delta : ℝ
  px : ℝ
  pz : ℝ
  wanderX : ℝ
  wanderZ : ℝ

/-- Run a sequence of wrapped per-frame updates on one monster; `none` once
the monster is removed from the registry. -/
def runFrames (terrain : ℝ → ℝ → ℝ) : List Frame → Monster → Option Monster
  | [], m => some m
  | f :: fs, m =>
    match (wrappedStep terrain f.wanderX f.wanderZ f.now f.delta f.px f.pz m).1 with
    | none => none
    | some m1 => runFrames terrain fs m1

/-- The freeze bookkeeping invariant tying a monster to its freeze-time
planar position `p0`: the slow timestamp is set, the monster is alive and at
`p0`, and the `_frozen` / `_frozenPos` pair is either still unset (freeze not
yet observed by the wrapper) or set to exactly `p0`. -/
def frozenInv (p0 : ℝ × ℝ) (t : ℝ) (m : Monster) : Prop :=
  m.slowUntil = some t ∧ m.state ≠ MState.dead ∧ m.x = p0.1 ∧ m.z = p0.2 ∧
  ((m.frozen = false ∧ m.frozenPos = none) ∨ (m.frozen = true ∧ m.frozenPos = some p0))

/-- Example freshly frozen monster: `slowUntil = 10`, wrapper bookkeeping not
yet run, standing at `(0, 3)`. -/
def monsterG : Monster :=
  { x := 0, z := 3, y := 1, rotY := 0, type := { damage := 5, speed := 2, size := 2 },
    hp := 35, maxHp := 60, state := MState.idle, time := 4, attackCooldown := 0,
    idleTargetX := 0, idleTargetZ := 3, deathTime := 0, scale := 2,
    slowUntil := some 10, frozen := false, frozenPos := none, isBoss := false }

/-- Two example frames at wall-clock times 1 and 2, both before `monsterG`'s
freeze expiry at 10. -/
def framesG : List Frame :=
  [{ now := 1, delta := 0.1, px := 0, pz := 0, wanderX := 0, wanderZ := 0 },
   { now := 2, delta := 0.1, px := 0, pz := 0, wanderX := 0, wanderZ := 0 }]

/-- Example monster used to instantiate theorems: a slime-kind monster at
world position `(0, 5)` with full hp `60`. -/
def monsterA : Monster :=
  { x := 0, z := 5, y := 1, rotY := 0, type := { damage := 3, speed := 1.5, size := 1.8 },
    hp := 60, maxHp := 60, state := MState.idle, time := 0, attackCooldown := 0,
    idleTargetX := 0, idleTargetZ := 5, deathTime := 0, scale := 1.8,
    slowUntil := none, frozen := false, frozenPos := none, isBoss := false }

/-- Example monster standing exactly at the world origin with full hp `60`. -/
def monsterB : Monster :=
  { x := 0, z := 0, y := 1, rotY := 0, type := { damage := 5, speed := 2, size := 2 },
    hp := 60, maxHp := 60, state := MState.idle, time := 0, attackCooldown := 0,
    idleTargetX := 0, idleTargetZ := 0, deathTime := 0, scale := 2,
    slowUntil := none, frozen := false, frozenPos := none, isBoss := false }

/-- The projectile hit condition tested against each monster: not dead and
planar distance to the (moved) projectile below the per-kind hit radius. -/
def projHitCond (px pz : ℝ) (m : Monster) : Prop :=
  m.state ≠ MState.dead ∧
  Real.sqrt ((m.x - px) * (m.x - px) + (m.z - pz) * (m.z - pz)) < hitRange m

/-- Example in-flight frostbolt: 20 of its 40 range already traveled, flying
along +z from the origin. -/
def projC4 : Projectile :=
  { x := 0, y := 1.5, z := 0, dirX := 0, dirY := 0, dirZ := 1,
    speed := 25, damage := 25, slowDuration := 3, range := 40,
    traveled := 20, time := 0.8 }

/-- Example monster sitting at `(0, 25)`, right where `projC4` ends its next
1-second step. -/
def monsterC : Monster :=
  { x := 0, z := 25, y := 1, rotY := 0, type := { damage := 5, speed := 2, size := 2 },
    hp := 60, maxHp := 60, state := MState.idle, time := 0, attackCooldown := 0,
    idleTargetX := 0, idleTargetZ := 25, deathTime := 0, scale := 2,
    slowUntil := none, frozen := false, frozenPos := none, isBoss := false }

/-- A fresh spell system: both cooldowns zero, no projectiles, no effects. -/
def sysEmpty : SpellSys :=
  { frostboltCd := 0, frostNovaCd := 0, projectiles := [], effects := [] }

/-- A spell system in which frost nova is on cooldown (3 s remaining). -/
def sysNovaCd : SpellSys :=
  { frostboltCd := 0, frostNovaCd := 3, projectiles := [], effects := [] }

/-- A spell name that is not a key of the `spells` table. -/
def unknownName : String := "fireball"

/-- The contribution condition of `checkPlayerDamage`, phrased with
`attackCooldown = 0` (the code tests `¬ (attackCooldown > 0)`, and the
cooldown is never negative): attacking state, expired cooldown, and planar
distance below the per-kind attack range. -/
def playerHitCond (px pz : ℝ) (m : Monster) : Prop :=
  m.state = MState.attack ∧ m.attackCooldown = 0 ∧
  Real.sqrt ((px - m.x) * (px - m.x) + (pz - m.z) * (pz - m.z)) <
    (if m.isBoss then 8 else ATTACK_RANGE)

instance (px pz : ℝ) (m : Monster) : Decidable (playerHitCond px pz m) := by
  unfold playerHitCond
  infer_instance

/-- Example dead monster whose `deathTime` is about to cross the 1.5 s
removal threshold. -/
def monsterD : Monster :=
  { x := 10, z := 10, y := 1, rotY := 0, type := { damage := 4, speed := 3, size := 1.6 },
    hp := 0, maxHp := 50, state := MState.dead, time := 12, attackCooldown := 0,
    idleTargetX := 10, idleTargetZ := 10, deathTime := 1.4, scale := 1.6,
    slowUntil := none, frozen := false, frozenPos := none, isBoss := false }

/-- Example live monster at planar distance 3 from the origin (the spec's
chase-not-attack example distance). -/
def monsterE : Monster :=
  { x := 0, z := 3, y := 1, rotY := 0, type := { damage := 3, speed := 1.5, size := 1.8 },
    hp := 45, maxHp := 45, state := MState.idle, time := 2, attackCooldown := 0,
    idleTargetX := 0, idleTargetZ := 3, deathTime := 0, scale := 1.8,
    slowUntil := none, frozen := false, frozenPos := none, isBoss := false }

/-- Example attacking monster at planar distance 1 from the origin with an
expired attack cooldown. -/
def monsterF : Monster :=
  { x := 0, z := 1, y := 1, rotY := 0, type := { damage := 3, speed := 1.5, size := 1.8 },
    hp := 45, maxHp := 45, state := MState.attack, time := 2, attackCooldown := 0,
    idleTargetX := 0, idleTargetZ := 1, deathTime := 0, scale := 1.8,
    slowUntil := none, frozen := false, frozenPos := none, isBoss := false }

/-- The frame-boundary invariant of the data model: a monster with `hp = 0`
is in the `dead` state. -/
def hpDeadInv (m : Monster) : Prop := m.hp = 0 → m.state = MState.dead

/-- Example low-hp monster at planar distance 1 from the origin, about to
take lethal damage. -/
def monsterH : Monster :=
  { x := 0, z := 1, y := 1, rotY := 0, type := { damage := 5, speed := 2, size := 2 },
    hp := 10, maxHp := 60, state := MState.idle, time := 2, attackCooldown := 0,
    idleTargetX := 0, idleTargetZ := 1, deathTime := 0, scale := 2,
    slowUntil := none, frozen := false, frozenPos := none, isBoss := false }

/- ──────────────────────────── Theorems ──────────────────────────── -/

/-- Unfolding lemma: for `θ ≤ π` the subtract loop does nothing. -/
theorem wrapDown_of_le (θ : ℝ) (h : ¬ θ > π) : wrapDown θ = θ := by
  rw [wrapDown]
  simp [h]

/-- Unfolding lemma: for `-π ≤ θ` the add loop does nothing. -/
theorem wrapUp_of_ge (θ : ℝ) (h : ¬ θ < -π) : wrapUp θ = θ := by
  rw [wrapUp]
  simp [h]

/-- An angle already in `[-π, π]` is left unchanged by the normalization. -/
theorem wrapAngle_of_mem (θ : ℝ) (h1 : ¬ θ > π) (h2 : ¬ θ < -π) : wrapAngle θ = θ := by
  rw [wrapAngle, wrapDown_of_le θ h1, wrapUp_of_ge θ h2]

/-- A monster satisfying the hit condition is damaged (hp lowered by `damage`,
clamped at 0) and contributes `true` to `hitAny`. -/
theorem meleeStep_hit (px pz playerAngle range damage : ℝ) (m : Monster)
    (h : meleeHitCond px pz playerAngle range m) :
    (meleeStep px pz playerAngle range damage m).1.hp =
      (if m.hp - damage ≤ 0 then 0 else m.hp - damage) ∧
    (meleeStep px pz playerAngle range damage m).2 = true := by
  obtain ⟨h1, h2, h3⟩ := h
  rw [← not_lt] at h2
  simp only [meleeStep, h1, if_neg, h2, h3, if_pos, if_false, if_true]
  split_ifs <;> simp_all

/-- A monster failing the hit condition is returned unchanged and contributes
`false` to `hitAny`. -/
theorem meleeStep_miss (px pz playerAngle range damage : ℝ) (m : Monster)
    (h : ¬ meleeHitCond px pz playerAngle range m) :
    meleeStep px pz playerAngle range damage m = (m, false) := by
  simp only [meleeHitCond, not_and_or, not_not, not_le, not_lt] at h
  by_cases g1 : m.state = MState.dead
  · simp [meleeStep, g1]
  · by_cases g2 : Real.sqrt ((m.x - px) * (m.x - px) + (m.z - pz) * (m.z - pz)) > range
    · simp [meleeStep, g1, g2]
    · have g3 : ¬ |wrapAngle (atan2 (m.x - px) (m.z - pz) - playerAngle)| < π / 2 := by
        rcases h with h | h | h
        · exact absurd h g1
        · exact absurd h (by rwa [gt_iff_lt] at g2)
        · exact not_lt.mpr h
      simp [meleeStep, g1, g2, g3]

/-- Normalizing the zero angle leaves it unchanged. -/
theorem wrapAngle_zero : wrapAngle 0 = 0 :=
  wrapAngle_of_mem 0 (not_lt.mpr Real.pi_pos.le) (not_lt.mpr (neg_nonpos.mpr Real.pi_pos.le))

/-- `Math.atan2 0 x = 0` for positive `x`. -/
theorem atan2_zero_pos (x : ℝ) (hx : 0 < x) : atan2 0 x = 0 := by
  simp [atan2, if_pos hx, Real.arctan_zero]

/-- `Math.atan2 0 0 = 0`. -/
theorem atan2_zero_zero : atan2 0 0 = 0 := by
  simp [atan2]

/-- C2 (amended: the distance bound is `≤ range`, not `< range`, because the
loop skips a monster only when `dist > range`): `attackMonstersInRange`
damages a non-dead monster if and only if its planar distance to the player
is at most `range` and the normalized angular difference has absolute value
below `π / 2`; every monster failing either bound is returned entirely
unchanged, and the returned flag is `true` iff at least one monster was hit. -/
theorem melee_hit_iff (px pz playerAngle range damage : ℝ) (ms : List Monster) :
    (∀ m ∈ ms, meleeHitCond px pz playerAngle range m →
      (meleeStep px pz playerAngle range damage m).1.hp =
        (if m.hp - damage ≤ 0 then 0 else m.hp - damage)) ∧
    (∀ m ∈ ms, ¬ meleeHitCond px pz playerAngle range m →
      (meleeStep px pz playerAngle range damage m).1 = m) ∧
    ((attackMonstersInRange px pz playerAngle range damage ms).2 = true ↔
      ∃ m ∈ ms, meleeHitCond px pz playerAngle range m) := by
  refine ⟨fun m _ hm => (meleeStep_hit px pz playerAngle range damage m hm).1,
    fun m _ hm => congrArg Prod.fst (meleeStep_miss px pz playerAngle range damage m hm), ?_⟩
  have hiff : ∀ m, (meleeStep px pz playerAngle range damage m).2 = true ↔
      meleeHitCond px pz playerAngle range m := by
    intro m
    constructor
    · intro ht
      by_contra hc
      rw [meleeStep_miss px pz playerAngle range damage m hc] at ht
      exact Bool.false_ne_true ht
    · intro hc
      exact (meleeStep_hit px pz playerAngle range damage m hc).2
  simp only [attackMonstersInRange, List.any_eq_true]
  constructor
  · rintro ⟨m, hm, hb⟩
    exact ⟨m, hm, (hiff m).mp hb⟩
  · rintro ⟨m, hm, hc⟩
    exact ⟨m, hm, (hiff m).mpr hc⟩

/-- Counterexample to C2 as stated: with the player at the origin facing
angle 0, `range = 5` and `damage = 10`, the monster `monsterA` sits at planar
distance exactly `5`, so the claim's strict bound `dist < range` fails — yet
the melee resolution damages it (hp drops from 60 to 50). -/
theorem melee_strict_bound_counterexample :
    ¬ (Real.sqrt ((monsterA.x - 0) * (monsterA.x - 0) + (monsterA.z - 0) * (monsterA.z - 0)) < 5) ∧
    (meleeStep 0 0 0 5 10 monsterA).1.hp = 50 ∧ monsterA.hp = 60 := by
  have harg : (monsterA.x - 0) * (monsterA.x - 0) + (monsterA.z - 0) * (monsterA.z - 0) = 5 * 5 := by
    simp [monsterA]
  have hd : Real.sqrt ((monsterA.x - 0) * (monsterA.x - 0) + (monsterA.z - 0) * (monsterA.z - 0)) = 5 := by
    rw [harg, Real.sqrt_mul_self (by norm_num : (0:ℝ) ≤ 5)]
  have hang : wrapAngle (atan2 (monsterA.x - 0) (monsterA.z - 0) - 0) = 0 := by
    have hx : monsterA.x - 0 = 0 := by simp [monsterA]
    have hz : monsterA.z - 0 = 5 := by simp [monsterA]
    rw [hx, hz, atan2_zero_pos 5 (by norm_num), zero_sub, neg_zero, wrapAngle_zero]
  have hcond : meleeHitCond 0 0 0 5 monsterA := by
    refine ⟨by simp [monsterA], by rw [hd], ?_⟩
    rw [hang]
    simpa using half_pos Real.pi_pos
  refine ⟨by rw [hd]; norm_num, ?_, by simp [monsterA]⟩
  have := (meleeStep_hit 0 0 0 5 10 monsterA hcond).1
  rw [this]
  simp [monsterA]
  norm_num

/-- Witness instantiating `melee_hit_iff` at a concrete player/monster pair:
`monsterA` is hit and damaged from 60 to 50 hp, and the call reports a hit. -/
theorem melee_hit_iff_witness :
    meleeHitCond 0 0 0 5 monsterA ∧
    (meleeStep 0 0 0 5 10 monsterA).1.hp =
      (if monsterA.hp - 10 ≤ 0 then 0 else monsterA.hp - 10) ∧
    (attackMonstersInRange 0 0 0 5 10 [monsterA]).2 = true := by
  have harg : (monsterA.x - 0) * (monsterA.x - 0) + (monsterA.z - 0) * (monsterA.z - 0) = 5 * 5 := by
    simp [monsterA]
  have hd : Real.sqrt ((monsterA.x - 0) * (monsterA.x - 0) + (monsterA.z - 0) * (monsterA.z - 0)) = 5 := by
    rw [harg, Real.sqrt_mul_self (by norm_num : (0:ℝ) ≤ 5)]
  have hang : wrapAngle (atan2 (monsterA.x - 0) (monsterA.z - 0) - 0) = 0 := by
    have hx : monsterA.x - 0 = 0 := by simp [monsterA]
    have hz : monsterA.z - 0 = 5 := by simp [monsterA]
    rw [hx, hz, atan2_zero_pos 5 (by norm_num), zero_sub, neg_zero, wrapAngle_zero]
  have hcond : meleeHitCond 0 0 0 5 monsterA := by
    refine ⟨by simp [monsterA], by rw [hd], ?_⟩
    rw [hang]
    simpa using half_pos Real.pi_pos
  have h := melee_hit_iff 0 0 0 5 10 [monsterA]
  exact ⟨hcond, h.1 monsterA (by simp) hcond, h.2.2.mpr ⟨monsterA, by simp, hcond⟩⟩

/-- C10: a melee-hit monster whose planar distance to the player is at most
`0.1` takes the damage (hp lowered, clamped at 0) but receives no knockback:
its `(x, z)` position is unchanged, since the code guards the knockback
displacement with `dist > 0.1`. -/
theorem melee_no_knockback_when_close (px pz playerAngle range damage : ℝ) (m : Monster)
    (hhit : meleeHitCond px pz playerAngle range m)
    (hclose : Real.sqrt ((m.x - px) * (m.x - px) + (m.z - pz) * (m.z - pz)) ≤ 0.1) :
    (meleeStep px pz playerAngle range damage m).1.x = m.x ∧
    (meleeStep px pz playerAngle range damage m).1.z = m.z ∧
    (meleeStep px pz playerAngle range damage m).1.hp =
      (if m.hp - damage ≤ 0 then 0 else m.hp - damage) ∧
    (meleeStep px pz playerAngle range damage m).2 = true := by
  obtain ⟨h1, h2, h3⟩ := hhit
  rw [← not_lt] at h2
  have h4 : ¬ (Real.sqrt ((m.x - px) * (m.x - px) + (m.z - pz) * (m.z - pz)) > 0.1) :=
    not_lt.mpr hclose
  simp only [meleeStep, if_neg h1, if_neg h2, if_pos h3, if_neg h4]
  split_ifs with h5
  · simp
  · simp

/-- Witness instantiating `melee_no_knockback_when_close`: `monsterB` stands
exactly at the player's position (distance 0 ≤ 0.1), is damaged from 60 to 50
hp, and keeps its position. -/
theorem melee_no_knockback_when_close_witness :
    meleeHitCond 0 0 0 5 monsterB ∧
    Real.sqrt ((monsterB.x - 0) * (monsterB.x - 0) + (monsterB.z - 0) * (monsterB.z - 0)) ≤ 0.1 ∧
    (meleeStep 0 0 0 5 10 monsterB).1.x = monsterB.x ∧
    (meleeStep 0 0 0 5 10 monsterB).1.z = monsterB.z ∧
    (meleeStep 0 0 0 5 10 monsterB).1.hp =
      (if monsterB.hp - 10 ≤ 0 then 0 else monsterB.hp - 10) := by
  have harg : (monsterB.x - 0) * (monsterB.x - 0) + (monsterB.z - 0) * (monsterB.z - 0) = 0 := by
    simp [monsterB]
  have hd : Real.sqrt ((monsterB.x - 0) * (monsterB.x - 0) + (monsterB.z - 0) * (monsterB.z - 0)) = 0 := by
    rw [harg, Real.sqrt_zero]
  have hang : wrapAngle (atan2 (monsterB.x - 0) (monsterB.z - 0) - 0) = 0 := by
    have hx : monsterB.x - 0 = 0 := by simp [monsterB]
    have hz : monsterB.z - 0 = 0 := by simp [monsterB]
    rw [hx, hz, atan2_zero_zero, zero_sub, neg_zero, wrapAngle_zero]
  have hcond : meleeHitCond 0 0 0 5 monsterB := by
    refine ⟨by simp [monsterB], by rw [hd]; norm_num, ?_⟩
    rw [hang]
    simpa using half_pos Real.pi_pos
  have hclose : Real.sqrt ((monsterB.x - 0) * (monsterB.x - 0) + (monsterB.z - 0) * (monsterB.z - 0)) ≤ 0.1 := by
    rw [hd]
    norm_num
  have h := melee_no_knockback_when_close 0 0 0 5 10 monsterB hcond hclose
  exact ⟨hcond, hclose, h.1, h.2.1, h.2.2.1⟩

/-- C3: `castSpell` returns `false` and performs no state change at all (no
cooldown write, no monster mutation, no projectile or effect spawned) when the
name is unknown or the named spell's current cooldown is positive; when
accepted it returns `true` and resets that spell's current cooldown to its
cooldown total. -/
theorem castSpell_contract (name : String) (sys : SpellSys) (ms : List Monster)
    (px py pz ca cp now : ℝ) :
    ((name ≠ frostboltName ∧ name ≠ frostNovaName) →
      castSpell name sys ms px py pz ca cp now = (sys, ms, false)) ∧
    (name = frostboltName → sys.frostboltCd > 0 →
      castSpell name sys ms px py pz ca cp now = (sys, ms, false)) ∧
    (name = frostNovaName → sys.frostNovaCd > 0 →
      castSpell name sys ms px py pz ca cp now = (sys, ms, false)) ∧
    (name = frostboltName → ¬ sys.frostboltCd > 0 →
      (castSpell name sys ms px py pz ca cp now).2.2 = true ∧
      (castSpell name sys ms px py pz ca cp now).1.frostboltCd = frostboltCooldown) ∧
    (name = frostNovaName → ¬ sys.frostNovaCd > 0 →
      (castSpell name sys ms px py pz ca cp now).2.2 = true ∧
      (castSpell name sys ms px py pz ca cp now).1.frostNovaCd = frostNovaCooldown) := by
  have hne : frostNovaName ≠ frostboltName := by
    simp [frostboltName, frostNovaName]
  refine ⟨?_, ?_, ?_, ?_, ?_⟩
  · rintro ⟨h1, h2⟩
    simp [castSpell, h1, h2]
  · intro h1 h2
    subst h1
    simp [castSpell, h2]
  · intro h1 h2
    subst h1
    simp [castSpell, hne, h2]
  · intro h1 h2
    subst h1
    simp [castSpell, h2]
  · intro h1 h2
    subst h1
    simp [castSpell, hne, h2]

/-- Witness instantiating `castSpell_contract`: the unknown name `fireball`
is rejected without a state change; frost nova is rejected while on a 3 s
cooldown; frost nova from a fresh system is accepted and its cooldown reset
to the full 8 s. -/
theorem castSpell_contract_witness :
    castSpell unknownName sysEmpty [] 0 0 0 0 0 0 = (sysEmpty, [], false) ∧
    castSpell frostNovaName sysNovaCd [] 0 0 0 0 0 0 = (sysNovaCd, [], false) ∧
    (castSpell frostNovaName sysEmpty [] 0 0 0 0 0 0).2.2 = true ∧
    (castSpell frostNovaName sysEmpty [] 0 0 0 0 0 0).1.frostNovaCd = frostNovaCooldown := by
  have h1 := (castSpell_contract unknownName sysEmpty [] 0 0 0 0 0 0).1
    (by constructor <;> simp [unknownName, frostboltName, frostNovaName])
  have h2 := (castSpell_contract frostNovaName sysNovaCd [] 0 0 0 0 0 0).2.2.1
    rfl (by simp [sysNovaCd])
  have h3 := (castSpell_contract frostNovaName sysEmpty [] 0 0 0 0 0 0).2.2.2.2
    rfl (by simp [sysEmpty])
  exact ⟨h1, h2, h3.1, h3.2⟩

/-- Counterexample to C8 as stated: from a fresh system, casting frostbolt
and then immediately casting it again makes the second `castSpell` return
`true`, not `false` — frostbolt's cooldown total is `0`, so the reset leaves
`currentCd` at 0. -/
theorem frostbolt_double_cast_counterexample :
    (castSpell frostboltName
      (castSpell frostboltName sysEmpty [] 0 0 0 0 0 0).1
      [] 0 0 0 0 0 0).2.2 = true := by
  simp [castSpell, sysEmpty, frostboltCooldown, lt_irrefl]

/-- C8 (amended): what holds in the code is the property for a spell with a
positive cooldown total — two immediate frost nova casts make the second
return `false` — whereas frostbolt's cooldown total is `0`, so a second
immediate frostbolt cast is accepted and returns `true`. -/
theorem double_cast_behavior (sys : SpellSys) (ms ms2 : List Monster)
    (px py pz ca cp now : ℝ) :
    (¬ sys.frostboltCd > 0 →
      (castSpell frostboltName
        (castSpell frostboltName sys ms px py pz ca cp now).1
        ms2 px py pz ca cp now).2.2 = true) ∧
    (¬ sys.frostNovaCd > 0 →
      (castSpell frostNovaName
        (castSpell frostNovaName sys ms px py pz ca cp now).1
        ms2 px py pz ca cp now).2.2 = false) := by
  have hne : frostNovaName ≠ frostboltName := by
    simp [frostboltName, frostNovaName]
  constructor
  · intro h
    simp [castSpell, h, frostboltCooldown, lt_irrefl]
  · intro h
    simp [castSpell, hne, h, frostNovaCooldown]

/-- Witness instantiating `double_cast_behavior` on the fresh spell system. -/
theorem double_cast_behavior_witness :
    ¬ (sysEmpty.frostboltCd > 0) ∧ ¬ (sysEmpty.frostNovaCd > 0) ∧
    (castSpell frostboltName
      (castSpell frostboltName sysEmpty [] 0 0 0 0 0 0).1
      [] 0 0 0 0 0 0).2.2 = true ∧
    (castSpell frostNovaName
      (castSpell frostNovaName sysEmpty [] 0 0 0 0 0 0).1
      [] 0 0 0 0 0 0).2.2 = false := by
  have hb : ¬ (sysEmpty.frostboltCd > 0) := by simp [sysEmpty]
  have hn : ¬ (sysEmpty.frostNovaCd > 0) := by simp [sysEmpty]
  have h := double_cast_behavior sysEmpty [] [] 0 0 0 0 0 0
  exact ⟨hb, hn, h.1 hb, h.2 hn⟩

/-- `modifyAt` touches only the named index. -/
theorem modifyAt_getElem? {α : Type} (f : α → α) (i : ℕ) (l : List α) (j : ℕ) :
    (modifyAt f i l)[j]? = if j = i then (l[j]?).map f else l[j]? := by
  induction l generalizing i j with
  | nil => cases i <;> simp [modifyAt]
  | cons a as ih =>
    cases i with
    | zero => cases j <;> simp [modifyAt]
    | succ i2 =>
      cases j with
      | zero => simp [modifyAt]
      | succ j2 => simpa [modifyAt] using ih i2 j2

/-- When the hit-detection loop finds nothing, no monster satisfies the hit
condition. -/
theorem findHitIdx_none (px pz : ℝ) (ms : List Monster)
    (h : findHitIdx px pz ms = none) : ∀ m ∈ ms, ¬ projHitCond px pz m := by
  induction ms with
  | nil => simp
  | cons a as ih =>
    simp only [findHitIdx] at h
    by_cases hc : (a.state ≠ MState.dead ∧
        Real.sqrt ((a.x - px) * (a.x - px) + (a.z - pz) * (a.z - pz)) < hitRange a)
    · rw [if_pos hc] at h
      exact absurd h (by simp)
    · rw [if_neg hc] at h
      intro m hm
      rcases List.mem_cons.mp hm with rfl | hmem
      · exact hc
      · exact ih (by simpa using h) m hmem

/-- When the hit-detection loop returns index `i`, that monster satisfies the
hit condition and every monster before it fails it (the loop takes the first
hit and breaks). -/
theorem findHitIdx_some (px pz : ℝ) (ms : List Monster) :
    ∀ i, findHitIdx px pz ms = some i →
      ∃ h : i < ms.length, projHitCond px pz (ms.get ⟨i, h⟩) ∧
        ∀ j, j < i → ∀ hj : j < ms.length, ¬ projHitCond px pz (ms.get ⟨j, hj⟩) := by
  induction ms with
  | nil => simp [findHitIdx]
  | cons a as ih =>
    intro i h
    simp only [findHitIdx] at h
    by_cases hc : (a.state ≠ MState.dead ∧
        Real.sqrt ((a.x - px) * (a.x - px) + (a.z - pz) * (a.z - pz)) < hitRange a)
    · rw [if_pos hc] at h
      have hi : i = 0 := (Option.some.inj h).symm
      subst hi
      exact ⟨by simp, hc, fun j hj _ => absurd hj (Nat.not_lt_zero j)⟩
    · rw [if_neg hc] at h
      cases hfa : findHitIdx px pz as with
      | none =>
        rw [hfa] at h
        exact absurd h (by simp)
      | some k =>
        rw [hfa] at h
        have hik : i = k + 1 := by
          simpa using h.symm
        subst hik
        obtain ⟨hk, hck, hprev⟩ := ih k hfa
        refine ⟨by simpa using Nat.succ_lt_succ hk, by simpa using hck, ?_⟩
        intro j hj hjlen
        cases j with
        | zero => exact fun hco => hc hco
        | succ j2 =>
          have hj2 : j2 < k := Nat.lt_of_succ_lt_succ hj
          have hj2len : j2 < as.length := Nat.lt_of_succ_lt_succ hjlen
          simpa using hprev j2 hj2 hj2len

/-- C4 (amended: a projectile whose `traveled` exceeds `range` can still
apply damage in that same update, because the hit test runs before the
removal test; what holds is that a projectile removed without a hit applies
no damage): per update, a projectile that damages a monster is removed in
that update; a projectile with no hit leaves every monster unchanged and is
removed exactly when `traveled > range`; and a hit damages exactly one
monster — the first non-dead one within the per-kind hit radius — leaving
all others untouched. -/
theorem projectile_update_spec (now delta : ℝ) (p : Projectile) (ms : List Monster) :
    ((projStep now delta p ms).2.2.2 ≠ none → (projStep now delta p ms).2.2.1 = true) ∧
    ((projStep now delta p ms).2.2.2 = none →
      (projStep now delta p ms).2.1 = ms ∧
      ((projStep now delta p ms).2.2.1 = true ↔ p.traveled + p.speed * delta > p.range) ∧
      ∀ m ∈ ms, ¬ projHitCond (projStep now delta p ms).1.x (projStep now delta p ms).1.z m) ∧
    (∀ i, (projStep now delta p ms).2.2.2 = some i →
      (∃ h : i < ms.length,
        projHitCond (projStep now delta p ms).1.x (projStep now delta p ms).1.z (ms.get ⟨i, h⟩) ∧
        ∀ j, j < i → ∀ hj : j < ms.length,
          ¬ projHitCond (projStep now delta p ms).1.x (projStep now delta p ms).1.z (ms.get ⟨j, hj⟩)) ∧
      ((projStep now delta p ms).2.1)[i]? =
        (ms[i]?).map (projHitMonster now p.damage p.slowDuration) ∧
      ∀ j, j ≠ i → ((projStep now delta p ms).2.1)[j]? = ms[j]?) := by
  simp only [projStep]
  cases hf : findHitIdx (p.x + p.dirX * p.speed * delta) (p.z + p.dirZ * p.speed * delta) ms with
  | none =>
    refine ⟨by simp, ?_, by simp⟩
    intro _
    refine ⟨rfl, ?_, ?_⟩
    · constructor
      · intro h
        by_contra hc
        rw [if_neg hc] at h
        exact Bool.false_ne_true h
      · intro h
        rw [if_pos h]
    · intro m hm
      exact findHitIdx_none _ _ ms hf m hm
  | some k =>
    refine ⟨by simp, by simp, ?_⟩
    intro i hi
    have hik : k = i := by simpa using hi
    subst hik
    refine ⟨findHitIdx_some _ _ ms k hf, ?_, ?_⟩
    · rw [modifyAt_getElem?]
      simp
    · intro j hj
      rw [modifyAt_getElem?, if_neg hj]

/-- Counterexample to C4 as stated: after its 1-second step, `projC4` has
`traveled = 45 > range = 40`, so it is removed with `traveled > range` — yet
it still applies its 25 damage to `monsterC` (hp 60 → 35) in that same
update, because the hit test runs before the removal test. -/
theorem projectile_range_overshoot_counterexample :
    (projStep 7 1 projC4 [monsterC]).2.2.1 = true ∧
    (projStep 7 1 projC4 [monsterC]).1.traveled > projC4.range ∧
    ((projStep 7 1 projC4 [monsterC]).2.1.map Monster.hp) = [35] ∧
    monsterC.hp = 60 := by
  have harg : (monsterC.x - (projC4.x + projC4.dirX * projC4.speed * 1)) *
      (monsterC.x - (projC4.x + projC4.dirX * projC4.speed * 1)) +
      (monsterC.z - (projC4.z + projC4.dirZ * projC4.speed * 1)) *
      (monsterC.z - (projC4.z + projC4.dirZ * projC4.speed * 1)) = 0 := by
    norm_num [projC4, monsterC]
  have hcond : projHitCond (projC4.x + projC4.dirX * projC4.speed * 1)
      (projC4.z + projC4.dirZ * projC4.speed * 1) monsterC := by
    refine ⟨by simp [monsterC], ?_⟩
    rw [harg, Real.sqrt_zero]
    norm_num [hitRange, monsterC]
  have hfind : findHitIdx (projC4.x + projC4.dirX * projC4.speed * 1)
      (projC4.z + projC4.dirZ * projC4.speed * 1) [monsterC] = some 0 := by
    obtain ⟨hc1, hc2⟩ := hcond
    simp only [findHitIdx]
    rw [if_pos (And.intro hc1 hc2)]
  refine ⟨?_, ?_, ?_, by simp [monsterC]⟩
  · simp only [projStep]
    rw [hfind]
  · simp only [projStep]
    rw [hfind]
    norm_num [projC4]
  · simp only [projStep]
    rw [hfind]
    simp [modifyAt, projHitMonster, monsterC, projC4]
    norm_num

/-- Witness instantiating `projectile_update_spec` on the concrete projectile
`projC4` and single-monster list `[monsterC]`: the hit loop reports index 0
and the projectile is removed in the same update. -/
theorem projectile_update_spec_witness :
    (projStep 7 1 projC4 [monsterC]).2.2.2 = some 0 ∧
    (projStep 7 1 projC4 [monsterC]).2.2.1 = true := by
  have harg : (monsterC.x - (projC4.x + projC4.dirX * projC4.speed * 1)) *
      (monsterC.x - (projC4.x + projC4.dirX * projC4.speed * 1)) +
      (monsterC.z - (projC4.z + projC4.dirZ * projC4.speed * 1)) *
      (monsterC.z - (projC4.z + projC4.dirZ * projC4.speed * 1)) = 0 := by
    norm_num [projC4, monsterC]
  have hcond : projHitCond (projC4.x + projC4.dirX * projC4.speed * 1)
      (projC4.z + projC4.dirZ * projC4.speed * 1) monsterC := by
    refine ⟨by simp [monsterC], ?_⟩
    rw [harg, Real.sqrt_zero]
    norm_num [hitRange, monsterC]
  have hfind : findHitIdx (projC4.x + projC4.dirX * projC4.speed * 1)
      (projC4.z + projC4.dirZ * projC4.speed * 1) [monsterC] = some 0 := by
    obtain ⟨hc1, hc2⟩ := hcond
    simp only [findHitIdx]
    rw [if_pos (And.intro hc1 hc2)]
  have hsome : (projStep 7 1 projC4 [monsterC]).2.2.2 = some 0 := by
    simp only [projStep]
    rw [hfind]
  exact ⟨hsome, (projectile_update_spec 7 1 projC4 [monsterC]).1 (by rw [hsome]; simp)⟩

/-- C6: a dead monster's `deathTime` grows by `delta` each update and its
state never leaves `dead`; it is removed (spliced out) exactly when the
incremented `deathTime` exceeds its kind's threshold (boss 4 s, otherwise
1.5 s); the removal of a non-boss schedules exactly one respawn after the
fixed `setTimeout` delay of 5000 ms = 5 s, and a boss removal schedules
none. -/
theorem dead_monster_update (terrain : ℝ → ℝ → ℝ) (wx wz delta px pz : ℝ)
    (m : Monster) (hdead : m.state = MState.dead) :
    (∀ m2, (updateMonster terrain wx wz delta px pz m).1 = some m2 →
      m2.deathTime = m.deathTime + delta ∧ m2.state = MState.dead ∧ m2.hp = m.hp) ∧
    ((updateMonster terrain wx wz delta px pz m).1 = none ↔
      m.deathTime + delta > (if m.isBoss then 4 else 1.5)) ∧
    ((updateMonster terrain wx wz delta px pz m).2 =
      (if m.deathTime + delta > (if m.isBoss then 4 else 1.5) ∧ ¬ m.isBoss
       then some RESPAWN_DELAY_MS else none)) ∧
    RESPAWN_DELAY_MS / 1000 = 5 := by
  by_cases hrem : m.deathTime + delta > (if m.isBoss then 4 else 1.5)
  · refine ⟨?_, ?_, ?_, by norm_num [RESPAWN_DELAY_MS]⟩
    · intro m2 h
      simp [updateMonster, hdead, hrem] at h
    · simp [updateMonster, hdead, hrem]
    · simp only [updateMonster, hdead]
      simp [hrem]
      by_cases hb : m.isBoss <;> simp [hb]
  · refine ⟨?_, ?_, ?_, by norm_num [RESPAWN_DELAY_MS]⟩
    · intro m2 h
      simp [updateMonster, hdead, hrem] at h
      subst h
      simp [hdead]
    · simp [updateMonster, hdead, hrem]
    · simp [updateMonster, hdead, hrem]

/-- Witness instantiating `dead_monster_update`: the dead non-boss `monsterD`
with `deathTime = 1.4` crosses the 1.5 s threshold on a 0.2 s update, is
removed, and schedules one respawn after the 5000 ms delay. -/
theorem dead_monster_update_witness :
    monsterD.state = MState.dead ∧
    (updateMonster (fun _ _ => 0) 0 0 0.2 0 0 monsterD).1 = none ∧
    (updateMonster (fun _ _ => 0) 0 0 0.2 0 0 monsterD).2 = some RESPAWN_DELAY_MS := by
  have h := dead_monster_update (fun _ _ => 0) 0 0 0.2 0 0 monsterD rfl
  have hrem : monsterD.deathTime + 0.2 > (if monsterD.isBoss then 4 else 1.5) := by
    norm_num [monsterD]
  refine ⟨rfl, h.2.1.mpr hrem, ?_⟩
  rw [h.2.2.1, if_pos (And.intro hrem (by simp [monsterD]))]

/-- C7: the per-frame AI update of a live monster at planar distance `d` from
the player sets state `attack` when `d` is below both the per-kind aggro range
(boss 40, otherwise 12) and attack range (boss 8, otherwise 2); sets state
`chase` and moves the monster toward the player by exactly
`type.speed * delta` when `d` is below the aggro range but not the attack
range; and sets state `idle` when `d` is not below the aggro range. -/
theorem ai_state_transitions (terrain : ℝ → ℝ → ℝ) (wx wz delta px pz : ℝ)
    (m : Monster) (hlive : m.state ≠ MState.dead) :
    (Real.sqrt ((px - m.x) * (px - m.x) + (pz - m.z) * (pz - m.z)) <
        (if m.isBoss then 40 else AGGRO_RANGE) →
     Real.sqrt ((px - m.x) * (px - m.x) + (pz - m.z) * (pz - m.z)) <
        (if m.isBoss then 8 else ATTACK_RANGE) →
      (updateMonster terrain wx wz delta px pz m).1.map Monster.state =
        some MState.attack) ∧
    (Real.sqrt ((px - m.x) * (px - m.x) + (pz - m.z) * (pz - m.z)) <
        (if m.isBoss then 40 else AGGRO_RANGE) →
     ¬ (Real.sqrt ((px - m.x) * (px - m.x) + (pz - m.z) * (pz - m.z)) <
        (if m.isBoss then 8 else ATTACK_RANGE)) →
      (updateMonster terrain wx wz delta px pz m).1.map Monster.state =
        some MState.chase ∧
      (updateMonster terrain wx wz delta px pz m).1.map Monster.x =
        some (m.x + (px - m.x) /
          Real.sqrt ((px - m.x) * (px - m.x) + (pz - m.z) * (pz - m.z)) *
          m.type.speed * delta) ∧
      (updateMonster terrain wx wz delta px pz m).1.map Monster.z =
        some (m.z + (pz - m.z) /
          Real.sqrt ((px - m.x) * (px - m.x) + (pz - m.z) * (pz - m.z)) *
          m.type.speed * delta)) ∧
    (¬ (Real.sqrt ((px - m.x) * (px - m.x) + (pz - m.z) * (pz - m.z)) <
        (if m.isBoss then 40 else AGGRO_RANGE)) →
      (updateMonster terrain wx wz delta px pz m).1.map Monster.state =
        some MState.idle) := by
  refine ⟨?_, ?_, ?_⟩
  · intro hd1 hd2
    simp [updateMonster, hlive, hd1, hd2]
  · intro hd1 hd2
    simp [updateMonster, hlive, hd1, hd2]
  · intro hd1
    simp only [updateMonster]
    simp only [if_neg hlive]
    simp [hd1]
    split_ifs <;> simp

/-- Witness instantiating `ai_state_transitions`: the live non-boss
`monsterE` at distance exactly 3 from the player (attack range 2, aggro range
12) ends its update in state `chase`, not `attack` — the spec's example
scenario. -/
theorem ai_state_transitions_witness :
    monsterE.state ≠ MState.dead ∧
    (updateMonster (fun _ _ => 0) 0 0 0.1 0 0 monsterE).1.map Monster.state =
      some MState.chase := by
  have harg : (0 - monsterE.x) * (0 - monsterE.x) + (0 - monsterE.z) * (0 - monsterE.z) = 3 * 3 := by
    norm_num [monsterE]
  have hd : Real.sqrt ((0 - monsterE.x) * (0 - monsterE.x) + (0 - monsterE.z) * (0 - monsterE.z)) = 3 := by
    rw [harg, Real.sqrt_mul_self (by norm_num : (0:ℝ) ≤ 3)]
  have hlive : monsterE.state ≠ MState.dead := by
    simp [monsterE]
  have h := ai_state_transitions (fun _ _ => 0) 0 0 0.1 0 0 monsterE hlive
  refine ⟨hlive, (h.2.1 ?_ ?_).1⟩
  · rw [hd]
    norm_num [monsterE, AGGRO_RANGE]
  · rw [hd]
    norm_num [monsterE, ATTACK_RANGE]

/-- C9: under the maintained invariant that attack cooldowns are never
negative, `checkPlayerDamage` returns the sum of `type.damage` over exactly
the monsters in `attack` state with `attackCooldown = 0` and planar distance
below their per-kind attack range (boss 8, otherwise 2), sets exactly those
monsters' cooldowns to `ATTACK_COOLDOWN` (1.5 s), and leaves every other
monster unmodified. -/
theorem checkPlayerDamage_spec (px pz : ℝ) (ms : List Monster)
    (hcd : ∀ m ∈ ms, 0 ≤ m.attackCooldown) :
    (checkPlayerDamage px pz ms).2 =
      (ms.map (fun m => if playerHitCond px pz m then m.type.damage else 0)).sum ∧
    (checkPlayerDamage px pz ms).1 =
      ms.map (fun m => if playerHitCond px pz m
        then { m with attackCooldown := ATTACK_COOLDOWN } else m) := by
  induction ms with
  | nil => simp [checkPlayerDamage]
  | cons a as ih =>
    have hha : 0 ≤ a.attackCooldown := hcd a (by simp)
    have hrest := ih (fun m hm => hcd m (by simp [hm]))
    by_cases h1 : playerHitCond px pz a
    · obtain ⟨ha1, ha2, ha3⟩ := h1
      have hcond : a.state = MState.attack ∧ ¬ (a.attackCooldown > 0) :=
        ⟨ha1, by rw [ha2]; exact lt_irrefl 0⟩
      simp only [checkPlayerDamage, if_pos hcond, if_pos ha3, List.map_cons, List.sum_cons,
        if_pos (show playerHitCond px pz a from ⟨ha1, ha2, ha3⟩)]
      exact ⟨by rw [hrest.1]; ring, by rw [hrest.2]⟩
    · by_cases hcond : a.state = MState.attack ∧ ¬ (a.attackCooldown > 0)
      · have ha2 : a.attackCooldown = 0 := le_antisymm (not_lt.mp hcond.2) hha
        have hdist : ¬ (Real.sqrt ((px - a.x) * (px - a.x) + (pz - a.z) * (pz - a.z)) <
            (if a.isBoss then 8 else ATTACK_RANGE)) := by
          intro hc
          exact h1 ⟨hcond.1, ha2, hc⟩
        simp only [checkPlayerDamage, if_pos hcond, if_neg hdist, List.map_cons,
          List.sum_cons, if_neg h1]
        exact ⟨by rw [hrest.1]; ring, by rw [hrest.2]⟩
      · simp only [checkPlayerDamage, if_neg hcond, List.map_cons, List.sum_cons, if_neg h1]
        exact ⟨by rw [hrest.1]; ring, by rw [hrest.2]⟩

/-- Witness instantiating `checkPlayerDamage_spec`: the attacking `monsterF`
at distance 1 with expired cooldown contributes its 3 damage. -/
theorem checkPlayerDamage_spec_witness :
    (∀ m ∈ [monsterF], 0 ≤ m.attackCooldown) ∧
    (checkPlayerDamage 0 0 [monsterF]).2 = 3 := by
  have hcd : ∀ m ∈ [monsterF], 0 ≤ m.attackCooldown := by
    intro m hm
    rcases List.mem_singleton.mp hm with rfl
    norm_num [monsterF]
  have harg : (0 - monsterF.x) * (0 - monsterF.x) + (0 - monsterF.z) * (0 - monsterF.z) = 1 := by
    norm_num [monsterF]
  have hhit : playerHitCond 0 0 monsterF := by
    refine ⟨by simp [monsterF], by simp [monsterF], ?_⟩
    rw [harg, Real.sqrt_one]
    norm_num [monsterF, ATTACK_RANGE]
  have h := (checkPlayerDamage_spec 0 0 [monsterF] hcd).1
  refine ⟨hcd, ?_⟩
  rw [h]
  simp only [List.map_cons, List.map_nil, List.sum_cons, List.sum_nil, if_pos hhit]
  norm_num [monsterF]

/-- The pre-pass on a monster satisfying the freeze invariant marks it frozen
with snapshot `p0` and changes nothing else it reads later. -/
theorem wrapPre_frozen (now t : ℝ) (p0 : ℝ × ℝ) (m : Monster)
    (hinv : frozenInv p0 t m) (ht : t ≠ 0) (hnow : now < t) :
    (wrapPre now m).frozen = true ∧ (wrapPre now m).frozenPos = some p0 ∧
    (wrapPre now m).x = m.x ∧ (wrapPre now m).z = m.z ∧
    (wrapPre now m).state = m.state ∧ (wrapPre now m).slowUntil = m.slowUntil := by
  obtain ⟨hslow, hstate, hx, hz, hcase⟩ := hinv
  have hfz : isFrozen now m = true := by
    simp [isFrozen, hslow, ht, hnow, hstate]
  rcases hcase with ⟨hf, hp⟩ | ⟨hf, hp⟩
  · simp [wrapPre, hfz, hf, hp, hx, hz]
  · simp [wrapPre, hfz, hf, hp]

/-- The underlying `update` on a live monster keeps it in the registry,
schedules no respawn, never sets state `dead`, and leaves hp, `slowUntil` and
the wrapper bookkeeping fields untouched. -/
theorem updateMonster_live (terrain : ℝ → ℝ → ℝ) (wx wz delta px pz : ℝ)
    (m : Monster) (hlive : m.state ≠ MState.dead) :
    ∃ m2, (updateMonster terrain wx wz delta px pz m).1 = some m2 ∧
      m2.state ≠ MState.dead ∧ m2.slowUntil = m.slowUntil ∧
      m2.frozen = m.frozen ∧ m2.frozenPos = m.frozenPos ∧ m2.hp = m.hp ∧
      (updateMonster terrain wx wz delta px pz m).2 = none := by
  have hcond : ¬ (({ m with time := m.time + delta } : Monster).state = MState.dead) := hlive
  simp only [updateMonster, if_neg hcond]
  refine ⟨_, rfl, ?_, ?_, ?_, ?_, ?_, ?_⟩ <;>
    first
    | trivial
    | (split_ifs <;> simp)

/-- One wrapped per-frame update preserves the freeze invariant while the
wall clock is before the expiry: the monster stays in the registry and its
planar position is snapped back to `p0`. -/
theorem wrappedStep_frozen (terrain : ℝ → ℝ → ℝ) (wx wz now delta px pz t : ℝ)
    (p0 : ℝ × ℝ) (m : Monster)
    (hinv : frozenInv p0 t m) (ht : t ≠ 0) (hnow : now < t) :
    ∃ m2, (wrappedStep terrain wx wz now delta px pz m).1 = some m2 ∧
      frozenInv p0 t m2 := by
  obtain ⟨hpf, hpp, hpx, hpz, hps, hpu⟩ := wrapPre_frozen now t p0 m hinv ht hnow
  obtain ⟨hslow, hstate, hx, hz, hcase⟩ := hinv
  have hlive : (wrapPre now m).state ≠ MState.dead := by
    rw [hps]
    exact hstate
  obtain ⟨m3, h3, h3state, h3slow, h3frozen, h3fp, h3hp, h3resp⟩ :=
    updateMonster_live terrain wx wz delta px pz (wrapPre now m) hlive
  have hf3 : m3.frozen = true := by rw [h3frozen, hpf]
  have hp3 : m3.frozenPos = some p0 := by rw [h3fp, hpp]
  have hwp : wrapPost m3 = { m3 with x := p0.1, z := p0.2 } := by
    simp [wrapPost, hf3, hp3]
  refine ⟨wrapPost m3, ?_, ?_⟩
  · simp only [wrappedStep, h3]
    rfl
  · rw [hwp]
    exact ⟨by simp [h3slow, hpu, hslow], by simpa using h3state, by simp, by simp,
      Or.inr ⟨by simp [hf3], by simp [hp3]⟩⟩

/-- C5: a monster that is frozen (its `slowUntil` is set and nonzero, it is
not dead, and the wrapper has not yet recorded a snapshot) keeps, at the end
of every wrapped per-frame update whose wall-clock time is below `slowUntil`,
exactly the planar position it had when the freeze began — it is snapped back
to the freeze-time snapshot each frame and never removed. -/
theorem frozen_monster_position (terrain : ℝ → ℝ → ℝ) (frames : List Frame)
    (m : Monster) (t : ℝ)
    (hslow : m.slowUntil = some t) (ht : t ≠ 0) (hstate : m.state ≠ MState.dead)
    (hfr : m.frozen = false) (hfp : m.frozenPos = none)
    (hall : ∀ f ∈ frames, f.now < t) :
    ∃ m2, runFrames terrain frames m = some m2 ∧ m2.x = m.x ∧ m2.z = m.z := by
  have key : ∀ (fs : List Frame) (mm : Monster) (p0 : ℝ × ℝ), frozenInv p0 t mm →
      (∀ f ∈ fs, f.now < t) →
      ∃ m2, runFrames terrain fs mm = some m2 ∧ frozenInv p0 t m2 := by
    intro fs
    induction fs with
    | nil =>
      intro mm p0 hi _
      exact ⟨mm, rfl, hi⟩
    | cons f fs2 ih =>
      intro mm p0 hi hall2
      obtain ⟨m1, h1, hi1⟩ := wrappedStep_frozen terrain f.wanderX f.wanderZ f.now
        f.delta f.px f.pz t p0 mm hi ht (hall2 f (by simp))
      obtain ⟨m2, h2, hi2⟩ := ih m1 p0 hi1 (fun g hg => hall2 g (by simp [hg]))
      refine ⟨m2, ?_, hi2⟩
      simp only [runFrames, h1]
      exact h2
  obtain ⟨m2, hrun, hi2⟩ := key frames m (m.x, m.z)
    ⟨hslow, hstate, rfl, rfl, Or.inl ⟨hfr, hfp⟩⟩ hall
  exact ⟨m2, hrun, hi2.2.2.1, hi2.2.2.2.1⟩

/-- Witness instantiating `frozen_monster_position`: the freshly frozen
`monsterG` keeps its position `(0, 3)` across the two wrapped updates of
`framesG`. -/
theorem frozen_monster_position_witness :
    monsterG.slowUntil = some 10 ∧ monsterG.state ≠ MState.dead ∧
    monsterG.frozen = false ∧ monsterG.frozenPos = none ∧
    (∀ f ∈ framesG, f.now < 10) ∧
    ∃ m2, runFrames (fun _ _ => 0) framesG monsterG = some m2 ∧
      m2.x = monsterG.x ∧ m2.z = monsterG.z := by
  have hall : ∀ f ∈ framesG, f.now < (10:ℝ) := by
    intro f hf
    simp only [framesG, List.mem_cons, List.not_mem_nil, or_false] at hf
    rcases hf with rfl | rfl <;> norm_num
  refine ⟨rfl, by simp [monsterG], rfl, rfl, hall, ?_⟩
  exact frozen_monster_position (fun _ _ => 0) framesG monsterG 10 rfl
    (by norm_num) (by simp [monsterG]) rfl rfl hall

/-- A lethal melee hit clamps hp to 0, sets state `dead` and resets
`deathTime`, in the same call. -/
theorem meleeStep_lethal (px pz playerAngle range damage : ℝ) (m : Monster)
    (h : meleeHitCond px pz playerAngle range m) (hl : m.hp - damage ≤ 0) :
    (meleeStep px pz playerAngle range damage m).1.hp = 0 ∧
    (meleeStep px pz playerAngle range damage m).1.state = MState.dead ∧
    (meleeStep px pz playerAngle range damage m).1.deathTime = 0 := by
  obtain ⟨h1, h2, h3⟩ := h
  rw [← not_lt] at h2
  simp only [meleeStep, if_neg h1, if_neg h2, if_pos h3]
  split_ifs with hk <;> simp

/-- `meleeStep` preserves the hp-zero-implies-dead invariant. -/
theorem meleeStep_inv (px pz playerAngle range damage : ℝ) (m : Monster)
    (hinv : hpDeadInv m) : hpDeadInv (meleeStep px pz playerAngle range damage m).1 := by
  by_cases h : meleeHitCond px pz playerAngle range m
  · by_cases hl : m.hp - damage ≤ 0
    · intro _
      exact (meleeStep_lethal px pz playerAngle range damage m h hl).2.1
    · intro h0
      have hv := (meleeStep_hit px pz playerAngle range damage m h).1
      rw [if_neg hl] at hv
      rw [hv] at h0
      exact absurd (le_of_eq h0) hl
  · rw [congrArg Prod.fst (meleeStep_miss px pz playerAngle range damage m h)]
    exact hinv

/-- A melee call never raises hp (for nonnegative damage and hp). -/
theorem meleeStep_hp_le (px pz playerAngle range damage : ℝ) (m : Monster)
    (hd : 0 ≤ damage) (hhp : 0 ≤ m.hp) :
    (meleeStep px pz playerAngle range damage m).1.hp ≤ m.hp := by
  by_cases h : meleeHitCond px pz playerAngle range m
  · rw [(meleeStep_hit px pz playerAngle range damage m h).1]
    split_ifs with hcl
    · exact hhp
    · linarith
  · rw [congrArg Prod.fst (meleeStep_miss px pz playerAngle range damage m h)]

/-- A lethal projectile hit clamps hp to 0, sets state `dead` and resets
`deathTime`. -/
theorem projHitMonster_lethal (now damage sd : ℝ) (m : Monster)
    (hl : m.hp - damage ≤ 0) :
    (projHitMonster now damage sd m).hp = 0 ∧
    (projHitMonster now damage sd m).state = MState.dead ∧
    (projHitMonster now damage sd m).deathTime = 0 := by
  simp only [projHitMonster]
  split_ifs <;> simp

/-- `projHitMonster` preserves the hp-zero-implies-dead invariant. -/
theorem projHitMonster_inv (now damage sd : ℝ) (m : Monster)
    (hinv : hpDeadInv m) : hpDeadInv (projHitMonster now damage sd m) := by
  by_cases hl : m.hp - damage ≤ 0
  · intro _
    exact (projHitMonster_lethal now damage sd m hl).2.1
  · intro h0
    have hv : (projHitMonster now damage sd m).hp = m.hp - damage := by
      simp only [projHitMonster]
      rw [if_neg hl]
    rw [hv] at h0
    exact absurd (le_of_eq h0) hl

/-- A projectile hit never raises hp (for nonnegative damage and hp). -/
theorem projHitMonster_hp_le (now damage sd : ℝ) (m : Monster)
    (hd : 0 ≤ damage) (hhp : 0 ≤ m.hp) :
    (projHitMonster now damage sd m).hp ≤ m.hp := by
  simp only [projHitMonster]
  split_ifs with hcl
  · exact hhp
  · show m.hp - damage ≤ m.hp
    linarith

/-- A lethal frost nova hit clamps hp to 0, sets state `dead` and resets
`deathTime`. -/
theorem novaHitMonster_lethal (now px pz : ℝ) (m : Monster)
    (hstate : ¬ (m.state = MState.dead))
    (hdist : Real.sqrt ((m.x - px) * (m.x - px) + (m.z - pz) * (m.z - pz)) < frostNovaRange)
    (hl : m.hp - frostNovaDamage ≤ 0) :
    (novaHitMonster now px pz m).hp = 0 ∧
    (novaHitMonster now px pz m).state = MState.dead ∧
    (novaHitMonster now px pz m).deathTime = 0 := by
  simp only [novaHitMonster, if_neg hstate, if_pos hdist]
  split_ifs <;> simp

/-- `novaHitMonster` preserves the hp-zero-implies-dead invariant. -/
theorem novaHitMonster_inv (now px pz : ℝ) (m : Monster)
    (hinv : hpDeadInv m) : hpDeadInv (novaHitMonster now px pz m) := by
  by_cases hstate : m.state = MState.dead
  · simp only [novaHitMonster, if_pos hstate]
    exact hinv
  · by_cases hdist : Real.sqrt ((m.x - px) * (m.x - px) + (m.z - pz) * (m.z - pz)) <
        frostNovaRange
    · by_cases hl : m.hp - frostNovaDamage ≤ 0
      · intro _
        exact (novaHitMonster_lethal now px pz m hstate hdist hl).2.1
      · intro h0
        have hv : (novaHitMonster now px pz m).hp = m.hp - frostNovaDamage := by
          simp only [novaHitMonster, if_neg hstate, if_pos hdist]
          rw [if_neg hl]
        rw [hv] at h0
        exact absurd (le_of_eq h0) hl
    · simp only [novaHitMonster, if_neg hstate, if_neg hdist]
      exact hinv

/-- A frost nova never raises hp (for nonnegative hp). -/
theorem novaHitMonster_hp_le (now px pz : ℝ) (m : Monster) (hhp : 0 ≤ m.hp) :
    (novaHitMonster now px pz m).hp ≤ m.hp := by
  simp only [novaHitMonster]
  split_ifs with h1 h2 h3
  · exact le_refl _
  · exact hhp
  · show m.hp - frostNovaDamage ≤ m.hp
    norm_num [frostNovaDamage]
  · exact le_refl _

/-- The AI update (which never writes hp, and keeps dead monsters dead)
preserves the hp-zero-implies-dead invariant. -/
theorem updateMonster_inv (terrain : ℝ → ℝ → ℝ) (wx wz delta px pz : ℝ)
    (m : Monster) (hinv : hpDeadInv m) :
    ∀ m2, (updateMonster terrain wx wz delta px pz m).1 = some m2 → hpDeadInv m2 := by
  intro m2 h2
  by_cases hdead : m.state = MState.dead
  · obtain ⟨_, hst, _⟩ := (dead_monster_update terrain wx wz delta px pz m hdead).1 m2 h2
    intro _
    exact hst
  · obtain ⟨m3, h3, h3state, _, _, _, h3hp, _⟩ :=
      updateMonster_live terrain wx wz delta px pz m hdead
    rw [h3] at h2
    have hm : m2 = m3 := (Option.some.inj h2).symm
    subst hm
    intro h0
    exact ((hdead (hinv (h3hp ▸ h0)))).elim

/-- The pre-pass of the freeze wrapper touches only the bookkeeping fields. -/
theorem wrapPre_preserves (now : ℝ) (m : Monster) :
    (wrapPre now m).hp = m.hp ∧ (wrapPre now m).state = m.state := by
  simp only [wrapPre]
  split_ifs <;> simp

/-- The snap-back pass of the freeze wrapper touches only the planar
position. -/
theorem wrapPost_preserves (m : Monster) :
    (wrapPost m).hp = m.hp ∧ (wrapPost m).state = m.state := by
  unfold wrapPost
  split_ifs with h
  · cases hm : m.frozenPos <;> simp [hm]
  · simp

/-- The whole wrapped per-frame update preserves the hp-zero-implies-dead
invariant. -/
theorem wrappedStep_inv (terrain : ℝ → ℝ → ℝ) (wx wz now delta px pz : ℝ)
    (m : Monster) (hinv : hpDeadInv m) :
    ∀ m2, (wrappedStep terrain wx wz now delta px pz m).1 = some m2 → hpDeadInv m2 := by
  intro m2 h2
  have hpre : hpDeadInv (wrapPre now m) := by
    intro h0
    rw [(wrapPre_preserves now m).2]
    exact hinv (by rw [← (wrapPre_preserves now m).1]; exact h0)
  simp only [wrappedStep] at h2
  cases hu : (updateMonster terrain wx wz delta px pz (wrapPre now m)).1 with
  | none =>
    rw [hu] at h2
    exact absurd h2 (by simp)
  | some m3 =>
    rw [hu] at h2
    have h23 : wrapPost m3 = m2 := by simpa using h2
    subst h23
    have h3inv := updateMonster_inv terrain wx wz delta px pz (wrapPre now m) hpre m3 hu
    intro h0
    rw [(wrapPost_preserves m3).2]
    exact h3inv (by rw [← (wrapPost_preserves m3).1]; exact h0)

/-- C1: whenever melee resolution, a frostbolt projectile hit or a frost
nova burst brings a monster's hp to 0 or below, the same synchronous
operation clamps hp to exactly 0, sets state `dead` and resets `deathTime`
to 0; no such operation ever raises hp (for nonnegative damage and hp); and
the frame-boundary invariant `hp = 0 → state = dead` is preserved by all
three damage operations, by the AI update, and by the wrapped per-frame
update, so a monster is never left with `hp = 0` and a live state. -/
theorem hp_zero_dead_invariant (terrain : ℝ → ℝ → ℝ)
    (px pz playerAngle range damage now sd wx wz delta : ℝ) (m : Monster) :
    (meleeHitCond px pz playerAngle range m → m.hp - damage ≤ 0 →
      (meleeStep px pz playerAngle range damage m).1.hp = 0 ∧
      (meleeStep px pz playerAngle range damage m).1.state = MState.dead ∧
      (meleeStep px pz playerAngle range damage m).1.deathTime = 0) ∧
    (m.hp - damage ≤ 0 →
      (projHitMonster now damage sd m).hp = 0 ∧
      (projHitMonster now damage sd m).state = MState.dead ∧
      (projHitMonster now damage sd m).deathTime = 0) ∧
    (¬ (m.state = MState.dead) →
      Real.sqrt ((m.x - px) * (m.x - px) + (m.z - pz) * (m.z - pz)) < frostNovaRange →
      m.hp - frostNovaDamage ≤ 0 →
      (novaHitMonster now px pz m).hp = 0 ∧
      (novaHitMonster now px pz m).state = MState.dead ∧
      (novaHitMonster now px pz m).deathTime = 0) ∧
    (0 ≤ damage → 0 ≤ m.hp →
      (meleeStep px pz playerAngle range damage m).1.hp ≤ m.hp ∧
      (projHitMonster now damage sd m).hp ≤ m.hp ∧
      (novaHitMonster now px pz m).hp ≤ m.hp) ∧
    (hpDeadInv m →
      hpDeadInv (meleeStep px pz playerAngle range damage m).1 ∧
      hpDeadInv (projHitMonster now damage sd m) ∧
      hpDeadInv (novaHitMonster now px pz m) ∧
      (∀ m2, (updateMonster terrain wx wz delta px pz m).1 = some m2 → hpDeadInv m2) ∧
      (∀ m2, (wrappedStep terrain wx wz now delta px pz m).1 = some m2 → hpDeadInv m2)) := by
  refine ⟨fun h hl => meleeStep_lethal px pz playerAngle range damage m h hl,
    fun hl => projHitMonster_lethal now damage sd m hl,
    fun hs hd hl => novaHitMonster_lethal now px pz m hs hd hl,
    fun hd hhp => ⟨meleeStep_hp_le px pz playerAngle range damage m hd hhp,
      projHitMonster_hp_le now damage sd m hd hhp,
      novaHitMonster_hp_le now px pz m hhp⟩,
    fun hinv => ⟨meleeStep_inv px pz playerAngle range damage m hinv,
      projHitMonster_inv now damage sd m hinv,
      novaHitMonster_inv now px pz m hinv,
      updateMonster_inv terrain wx wz delta px pz m hinv,
      wrappedStep_inv terrain wx wz now delta px pz m hinv⟩⟩

/-- Witness instantiating `hp_zero_dead_invariant`: `monsterH` with 10 hp is
hit by a 25-damage melee attack and a 25-damage projectile hit; both leave it
with hp exactly 0, state `dead` and `deathTime` 0. -/
theorem hp_zero_dead_invariant_witness :
    meleeHitCond 0 0 0 5 monsterH ∧ monsterH.hp - 25 ≤ 0 ∧
    (meleeStep 0 0 0 5 25 monsterH).1.hp = 0 ∧
    (meleeStep 0 0 0 5 25 monsterH).1.state = MState.dead ∧
    (projHitMonster 7 25 3 monsterH).hp = 0 ∧
    (projHitMonster 7 25 3 monsterH).state = MState.dead := by
  have harg : (monsterH.x - 0) * (monsterH.x - 0) + (monsterH.z - 0) * (monsterH.z - 0) = 1 := by
    norm_num [monsterH]
  have hd : Real.sqrt ((monsterH.x - 0) * (monsterH.x - 0) + (monsterH.z - 0) * (monsterH.z - 0)) = 1 := by
    rw [harg, Real.sqrt_one]
  have hang : wrapAngle (atan2 (monsterH.x - 0) (monsterH.z - 0) - 0) = 0 := by
    have hx : monsterH.x - 0 = 0 := by simp [monsterH]
    have hz : monsterH.z - 0 = 1 := by simp [monsterH]
    rw [hx, hz, atan2_zero_pos 1 (by norm_num), zero_sub, neg_zero, wrapAngle_zero]
  have hcond : meleeHitCond 0 0 0 5 monsterH := by
    refine ⟨by simp [monsterH], by rw [hd]; norm_num, ?_⟩
    rw [hang]
    simpa using half_pos Real.pi_pos
  have hl : monsterH.hp - 25 ≤ 0 := by norm_num [monsterH]
  have h := hp_zero_dead_invariant (fun _ _ => 0) 0 0 0 5 25 7 3 0 0 0.1 monsterH
  have h1 := h.1 hcond hl
  have h2 := h.2.1 hl
  exact ⟨hcond, hl, h1.1, h1.2.1, h2.1, h2.2.1⟩

end

end Vibegame
